import Mathlib

/-!
Verification of the Braza adapter `create_order.py` client
(`scripts/create_order.py`): a shallow embedding of its request-signing,
RFQ-creation, quote-polling and quote-execution logic, together with
theorems settling the specification claims about it.

Python strings are modelled as Lean `String`, byte strings as `List Nat`
(each entry `< 256`), dictionaries as association lists, and HTTP
responses as explicit records.  The wall clock (used only to mint
nonces) is passed in as an explicit millisecond value.
-/

namespace CreateOrder

/-! ## Decimal rendering: model of Python `str(int)` -/

/-- Character for a single decimal digit, as produced by Python `str`. -/
def digit_char (d : Nat) : Char :=
  if d = 0 then '0' else if d = 1 then '1' else if d = 2 then '2'
  else if d = 3 then '3' else if d = 4 then '4' else if d = 5 then '5'
  else if d = 6 then '6' else if d = 7 then '7' else if d = 8 then '8' else '9'

/-- Decimal digit list, fuel-based so that the kernel can evaluate it;
`fuel > n` suffices since a number has at most `n + 1` digits. -/
def nat_digits_go (fuel : Nat) (n : Nat) : List Char :=
  match fuel with
  | 0 => []
  | fuel + 1 =>
    if n < 10 then [digit_char n]
    else nat_digits_go fuel (n / 10) ++ [digit_char (n % 10)]

/-- Decimal digit list of a natural number, most significant first. -/
def nat_digits (n : Nat) : List Char := nat_digits_go (n + 1) n

/-- Model of Python `str` applied to a non-negative integer. -/
def pyStr (n : Nat) : String := ⟨nat_digits n⟩

/-- Numeric value of a decimal digit character (inverse of `digit_char`). -/
def char_val (c : Char) : Nat :=
  if c = '0' then 0 else if c = '1' then 1 else if c = '2' then 2
  else if c = '3' then 3 else if c = '4' then 4 else if c = '5' then 5
  else if c = '6' then 6 else if c = '7' then 7 else if c = '8' then 8
  else if c = '9' then 9 else 0

/-- Numeric value of a decimal string (left inverse of `pyStr`). -/
def decimal_val (s : String) : Nat :=
  s.data.foldl (fun a c => 10 * a + char_val c) 0

theorem char_val_digit_char (d : Nat) (h : d < 10) : char_val (digit_char d) = d := by
  interval_cases d <;> rfl

theorem nat_digits_go_val (fuel : Nat) :
    ∀ n, n < fuel → (nat_digits_go fuel n).foldl (fun a c => 10 * a + char_val c) 0 = n := by
  induction fuel with
  | zero => intro n h; omega
  | succ f ih =>
    intro n h
    by_cases h10 : n < 10
    · simp only [nat_digits_go, h10, if_true, List.foldl_cons, List.foldl_nil]
      rw [char_val_digit_char n h10]
      omega
    · have hlt : n / 10 < f := by
        have : n / 10 < n := Nat.div_lt_self (by omega) (by omega)
        omega
      simp only [nat_digits_go, h10, if_false, List.foldl_append, List.foldl_cons,
        List.foldl_nil]
      rw [ih (n / 10) hlt, char_val_digit_char (n % 10) (Nat.mod_lt n (by omega))]
      omega

theorem decimal_val_pyStr (n : Nat) : decimal_val (pyStr n) = n :=
  nat_digits_go_val (n + 1) n (Nat.lt_succ_self n)

theorem pyStr_injective {a b : Nat} (h : pyStr a = pyStr b) : a = b := by
  have := congrArg decimal_val h
  rwa [decimal_val_pyStr, decimal_val_pyStr] at this

/-! ## Byte-level primitives: UTF-8, SHA-256, HMAC, base64.

These model the Python standard library calls `str.encode("utf-8")`,
`hashlib.sha256`, `hmac.new(...).digest()` and `base64.b64encode` used
by `create_signature`.  Bytes are naturals below 256; 32-bit words are
naturals reduced modulo `2 ^ 32`.
-/

/-- UTF-8 encoding of a single unicode scalar value. -/
def utf8_char (c : Char) : List Nat :=
  let n := c.toNat
  if n < 128 then [n]
  else if n < 2048 then [192 + n / 64, 128 + n % 64]
  else if n < 65536 then [224 + n / 4096, 128 + (n / 64) % 64, 128 + n % 64]
  else [240 + n / 262144, 128 + (n / 4096) % 64, 128 + (n / 64) % 64, 128 + n % 64]

/-- Model of Python `s.encode("utf-8")`. -/
def utf8_bytes (s : String) : List Nat := s.data.flatMap utf8_char

/-- Reduction modulo the 32-bit word size. -/
def w32 (n : Nat) : Nat := n % 4294967296

/-- 32-bit addition. -/
def add32 (a b : Nat) : Nat := w32 (a + b)

/-- 32-bit right rotation by `k`. -/
def rotr32 (k n : Nat) : Nat := w32 ((n >>> k) ||| (n <<< (32 - k)))

/-- SHA-256 message-schedule sigma 0 (rotations by 7 and 18, shift by 3). -/
def sched_sigma0 (x : Nat) : Nat :=
  Nat.xor (Nat.xor (rotr32 7 x) (rotr32 18 x)) (x / 8)

/-- SHA-256 message-schedule sigma 1 (rotations by 17 and 19, shift by 10). -/
def sched_sigma1 (x : Nat) : Nat :=
  Nat.xor (Nat.xor (rotr32 17 x) (rotr32 19 x)) (x / 1024)

/-- SHA-256 compression sigma 0 (rotations by 2, 13 and 22). -/
def comp_sigma0 (x : Nat) : Nat :=
  Nat.xor (Nat.xor (rotr32 2 x) (rotr32 13 x)) (rotr32 22 x)

/-- SHA-256 compression sigma 1 (rotations by 6, 11 and 25). -/
def comp_sigma1 (x : Nat) : Nat :=
  Nat.xor (Nat.xor (rotr32 6 x) (rotr32 11 x)) (rotr32 25 x)

/-- SHA-256 round constants (the fractional parts of the cube roots of
the first 64 primes, written in decimal). -/
def sha_k : List Nat :=
  [1116352408, 1899447441, 3049323471, 3921009573, 961987163,
   1508970993, 2453635748, 2870763221, 3624381080, 310598401,
   607225278, 1426881987, 1925078388, 2162078206, 2614888103,
   3248222580, 3835390401, 4022224774, 264347078, 604807628,
   770255983, 1249150122, 1555081692, 1996064986, 2554220882,
   2821834349, 2952996808, 3210313671, 3336571891, 3584528711,
   113926993, 338241895, 666307205, 773529912, 1294757372,
   1396182291, 1695183700, 1986661051, 2177026350, 2456956037,
   2730485921, 2820302411, 3259730800, 3345764771, 3516065817,
   3600352804, 4094571909, 275423344, 430227734, 506948616,
   659060556, 883997877, 958139571, 1322822218, 1537002063,
   1747873779, 1955562222, 2024104815, 2227730452, 2361852424,
   2428436474, 2756734187, 3204031479, 3329325298]

/-- SHA-256 initial hash state (fractional parts of the square roots of
the first 8 primes, written in decimal). -/
def sha_h0 : List Nat :=
  [1779033703, 3144134277, 1013904242, 2773480762,
   1359893119, 2600822924, 528734635, 1541459225]

/-- Group a byte list into big-endian 32-bit words. -/
def bytes_to_words : List Nat → List Nat
  | b1 :: b2 :: b3 :: b4 :: rest =>
      (b1 * 16777216 + b2 * 65536 + b3 * 256 + b4) :: bytes_to_words rest
  | _ => []

/-- One message-schedule extension step: append word 16, 17, ... -/
def sched_step (ws : List Nat) : List Nat :=
  ws ++ [add32 (add32 (sched_sigma1 (ws.getD (ws.length - 2) 0)) (ws.getD (ws.length - 7) 0))
              (add32 (sched_sigma0 (ws.getD (ws.length - 15) 0)) (ws.getD (ws.length - 16) 0))]

/-- Extend a 16-word block to the 64-word message schedule. -/
def schedule (ws : List Nat) : List Nat :=
  (List.range 48).foldl (fun acc _ => sched_step acc) ws

/-- One SHA-256 compression round on the 8-word working state. -/
def sha_round (st : List Nat) (k w : Nat) : List Nat :=
  match st with
  | [a, b, c, d, e, f, g, h] =>
      let ch := Nat.xor (Nat.land e f) (Nat.land (Nat.xor e 4294967295) g)
      let maj := Nat.xor (Nat.xor (Nat.land a b) (Nat.land a c)) (Nat.land b c)
      let t1 := add32 (add32 (add32 h (comp_sigma1 e)) (add32 ch k)) w
      let t2 := add32 (comp_sigma0 a) maj
      [add32 t1 t2, a, b, c, add32 d t1, e, f, g]
  | other => other

/-- Big-endian bytes of a 32-bit word. -/
def word_bytes (wd : Nat) : List Nat :=
  [(wd >>> 24) % 256, (wd >>> 16) % 256, (wd >>> 8) % 256, wd % 256]

/-- SHA-256 padding: append `0x80`, zeros, and the 64-bit bit length. -/
def sha256_pad (msg : List Nat) : List Nat :=
  let len := msg.length
  let zeros := (120 - ((len + 1) % 64)) % 64
  let bits := 8 * len
  msg ++ [128] ++ List.replicate zeros 0 ++
    [(bits >>> 56) % 256, (bits >>> 48) % 256, (bits >>> 40) % 256, (bits >>> 32) % 256,
     (bits >>> 24) % 256, (bits >>> 16) % 256, (bits >>> 8) % 256, bits % 256]

/-- Split a byte list into 64-byte chunks. -/
def chunks64 (bs : List Nat) : List (List Nat) :=
  if h : bs = [] then [] else bs.take 64 :: chunks64 (bs.drop 64)
  termination_by bs.length
  decreasing_by
    simp only [List.length_drop]
    have : bs.length ≠ 0 := fun hz => h (List.eq_nil_of_length_eq_zero hz)
    omega

/-- SHA-256 digest of a byte list, as 32 bytes. -/
def sha256 (msg : List Nat) : List Nat :=
  let final := (chunks64 (sha256_pad msg)).foldl
    (fun hstate chunk =>
      let ws := schedule (bytes_to_words chunk)
      let st := (sha_k.zip ws).foldl (fun st kw => sha_round st kw.1 kw.2) hstate
      (hstate.zip st).map (fun p => add32 p.1 p.2))
    sha_h0
  (final.map word_bytes).flatten

/-- Model of Python `hmac.new(key, msg, hashlib.sha256).digest()` (RFC 2104). -/
def hmac_sha256 (key msg : List Nat) : List Nat :=
  let k0 := if key.length > 64 then sha256 key else key
  let kpad := k0 ++ List.replicate (64 - k0.length) 0
  let ipad := kpad.map (fun b => b ^^^ 0x36)
  let opad := kpad.map (fun b => b ^^^ 0x5c)
  sha256 (opad ++ sha256 (ipad ++ msg))

/-- The base64 alphabet. -/
def b64_alphabet : List Char :=
  "ABCDEFGHIJKLMNOPQRSTUVWXYZabcdefghijklmnopqrstuvwxyz0123456789+/".data

/-- Character for a 6-bit group. -/
def b64_char (n : Nat) : Char := b64_alphabet.getD n 'A'

/-- Standard padded base64 encoding of a byte list. -/
def b64_encode_chars : List Nat → List Char
  | b1 :: b2 :: b3 :: rest =>
      b64_char (b1 >>> 2) :: b64_char (((b1 % 4) * 16) ||| (b2 >>> 4)) ::
      b64_char (((b2 % 16) * 4) ||| (b3 >>> 6)) :: b64_char (b3 % 64) ::
      b64_encode_chars rest
  | [b1, b2] =>
      [b64_char (b1 >>> 2), b64_char (((b1 % 4) * 16) ||| (b2 >>> 4)),
       b64_char ((b2 % 16) * 4), '=']
  | [b1] => [b64_char (b1 >>> 2), b64_char ((b1 % 4) * 16), '=', '=']
  | [] => []

/-- Model of Python `base64.b64encode(..).decode("utf-8")`. -/
def b64encode (bs : List Nat) : String := ⟨b64_encode_chars bs⟩

/-! ## The Signer: `create_signature` and `make_auth_headers` -/

/-- Embedding of `create_signature(nonce, path, api_key, secret_key)`:
signs the message `f"{api_key}:{nonce}:{path}"` with HMAC-SHA-256 keyed
by the secret key and base64-encodes the digest. -/
def create_signature (nonce path api_key secret_key : String) : String :=
  let message := api_key ++ ":" ++ nonce ++ ":" ++ path
  b64encode (hmac_sha256 (utf8_bytes secret_key) (utf8_bytes message))

/-- Embedding of `make_auth_headers(path, api_key, secret_key)`.  The
wall clock read `int(time.time() * 1000)` is passed in as `nowMs`. -/
def make_auth_headers (nowMs : Nat) (path api_key secret_key : String) :
    List (String × String) :=
  let nonce := pyStr nowMs
  let signature := create_signature nonce path api_key secret_key
  [("x-api-key", api_key),
   ("x-nonce", nonce),
   ("x-signature", signature),
   ("Content-Type", "application/json"),
   ("Accept", "application/json")]

/-! ## URL parsing: model of `urllib.parse.urlparse`

Only the `scheme`, `netloc` and `path` components are needed.  The model
follows CPython `urlsplit`: an optional scheme (letters, digits, `+`,
`-`, `.` before the first `:`, first character a letter), an optional
`//netloc` terminated by `/`, `?` or `#`, then the path up to the first
`?` or `#`.  `urlparse` additionally strips `;params` from the last path
segment when the scheme uses parameters. -/

/-- Scheme characters allowed after the first (CPython `scheme_chars`). -/
def scheme_char (c : Char) : Bool :=
  c.isAlpha || c.isDigit || c == '+' || c == '-' || c == '.'

/-- Whether a candidate scheme prefix is valid. -/
def valid_scheme : List Char → Bool
  | [] => false
  | c :: cs => c.isAlpha && cs.all scheme_char

/-- Predicate: the character is not a colon. -/
def not_colon (c : Char) : Bool := !(c == ':')

/-- What remains of the URL after removing a valid `scheme:` prefix
(CPython: `i = url.find(':')`, then `url[i+1:]` when the prefix before
the colon is a valid scheme). -/
def scheme_rest (cs : List Char) : List Char :=
  if cs.dropWhile not_colon ≠ [] ∧ valid_scheme (cs.takeWhile not_colon) = true then
    (cs.dropWhile not_colon).tail
  else cs

/-- The (lowercased) scheme of the URL, `[]` if none. -/
def scheme_chars_of (cs : List Char) : List Char :=
  if cs.dropWhile not_colon ≠ [] ∧ valid_scheme (cs.takeWhile not_colon) = true then
    (cs.takeWhile not_colon).map Char.toLower
  else []

/-- Characters terminating the netloc. -/
def netloc_delim (c : Char) : Bool := c == '/' || c == '?' || c == '#'

/-- What remains after removing a leading `//netloc`
(CPython: `if url[:2] == '//'`, netloc runs to the first `/`, `?` or `#`). -/
def split_netloc_rest (rs : List Char) : List Char :=
  if rs.take 2 = ['/', '/'] then (rs.drop 2).dropWhile (fun c => !netloc_delim c)
  else rs

/-- The netloc component (empty when the URL has no `//`). -/
def netloc_of (rs : List Char) : List Char :=
  if rs.take 2 = ['/', '/'] then (rs.drop 2).takeWhile (fun c => !netloc_delim c)
  else []

/-- Characters terminating the path (query or fragment). -/
def path_delim (c : Char) : Bool := c == '?' || c == '#'

/-- Path of the remainder after the scheme: skip the netloc, then take
until the query or fragment. -/
def rest_path (rs : List Char) : List Char :=
  (split_netloc_rest rs).takeWhile (fun c => !path_delim c)

/-- The `urlsplit` path component of a URL. -/
def split_path_chars (cs : List Char) : List Char :=
  rest_path (scheme_rest cs)

/-- Schemes for which `urlparse` splits `;params` (CPython `uses_params`). -/
def uses_params_schemes : List String :=
  ["", "ftp", "hdl", "prospero", "http", "imap", "https", "shttp", "rtsp",
   "rtspu", "sip", "sips", "snews", "svn", "svn+ssh", "telnet", "wais"]

/-- CPython `_splitparams` applied to a path: drop everything from the
first `;` of the last path segment onwards. -/
def split_params_path (p : List Char) : List Char :=
  if p.contains '/' then
    let revSeg := p.reverse.takeWhile (fun c => !(c == '/'))
    let pre := (p.reverse.dropWhile (fun c => !(c == '/'))).reverse
    if revSeg.reverse.contains ';' then
      pre ++ revSeg.reverse.takeWhile (fun c => !(c == ';'))
    else p
  else p.takeWhile (fun c => !(c == ';'))

/-- The `urlparse` path component (params stripped when applicable). -/
def pyurl_path_chars (cs : List Char) : List Char :=
  let p := split_path_chars cs
  if uses_params_schemes.contains (⟨scheme_chars_of cs⟩ : String) && p.contains ';' then
    split_params_path p
  else p

/-- Result of `urlparse`: the three components the client uses. -/
structure PyUrl where
  scheme : String
  netloc : String
  path : String
deriving DecidableEq

/-- Embedding of `urllib.parse.urlparse` restricted to the components
the client reads. -/
def pyUrlparse (s : String) : PyUrl :=
  { scheme := ⟨scheme_chars_of s.data⟩,
    netloc := ⟨netloc_of (scheme_rest s.data)⟩,
    path := ⟨pyurl_path_chars s.data⟩ }

/-- Strip all trailing slashes from a character list. -/
def rstripL (xs : List Char) : List Char :=
  (xs.reverse.dropWhile (fun c => c == '/')).reverse

/-- Model of Python `s.rstrip("/")`. -/
def rstrip_slash (s : String) : String := ⟨rstripL s.data⟩

/-! ## Derived request paths and URLs -/

/-- The path signed and requested by `poll_quotes`:
`urlparse(rfq_url).path.rstrip("/") + "/quotes"`. -/
def quotes_path_of (rfq_url : String) : String :=
  rstrip_slash (pyUrlparse rfq_url).path ++ "/quotes"

/-- The path signed and requested by `execute_quote`:
`urlparse(rfq_url).path.rstrip("/") + "/execute"`. -/
def execute_path_of (rfq_url : String) : String :=
  rstrip_slash (pyUrlparse rfq_url).path ++ "/execute"

/-- The full quotes URL `f"{scheme}://{netloc}{quotes_path}"`. -/
def quotes_url_of (rfq_url : String) : String :=
  (pyUrlparse rfq_url).scheme ++ "://" ++ (pyUrlparse rfq_url).netloc ++ quotes_path_of rfq_url

/-- The full execute URL `f"{scheme}://{netloc}{execute_path}"`. -/
def execute_url_of (rfq_url : String) : String :=
  (pyUrlparse rfq_url).scheme ++ "://" ++ (pyUrlparse rfq_url).netloc ++ execute_path_of rfq_url

/-! ## HTTP data model -/

/-- An HTTP response as the client observes it: status code, the parsed
JSON body (`none` when the body is not valid JSON; string-valued fields
only, which is all the client reads), response headers, and the raw body
text. -/
structure HttpResponse where
  status : Nat
  jsonBody : Option (List (String × String))
  headers : List (String × String)
  text : String
deriving DecidableEq

/-- An outgoing HTTP request built by the client. -/
structure Request where
  method : String
  url : String
  headers : List (String × String)
  body : String
deriving DecidableEq

/-- Python `dict.get` on an association list (string values). -/
def dictGet (d : List (String × String)) (k : String) : Option String :=
  (d.find? (fun kv => kv.1 == k)).map Prod.snd

/-- Lowercase a string character-wise (ASCII, as used for header keys). -/
def lower_str (s : String) : String := ⟨s.data.map Char.toLower⟩

/-- Case-insensitive header lookup, as in `requests`' header dictionary. -/
def headerGet (hs : List (String × String)) (k : String) : Option String :=
  (hs.find? (fun kv => lower_str kv.1 == lower_str k)).map Prod.snd

/-- Python truthiness of an optional string: `None` and `""` are falsy. -/
def truthy : Option String → Bool
  | none => false
  | some s => !(s == "")

/-- Python `a or b` on optional strings: `a` if truthy, else `b`. -/
def pyOr (a b : Option String) : Option String := if truthy a then a else b

/-! ## `create_rfq`: response handling -/

/-- Errors `create_rfq` can raise: `requests.HTTPError` from
`raise_for_status`, or the `RuntimeError` reporting a missing RFQ URL
(which carries the status, the parsed body and the headers). -/
inductive CreateError where
  | httpError (status : Nat)
  | missingRfqUrl (status : Nat) (body : List (String × String))
      (headers : List (String × String))
deriving DecidableEq

/-- The `or`-chain `data.get("rfqUrl") or data.get("rfq_url") or
data.get("url") or resp.headers.get("Location")` (with `data = {}` when
the body is not valid JSON). -/
def extract_rfq_url (resp : HttpResponse) : Option String :=
  let data := resp.jsonBody.getD []
  pyOr (dictGet data "rfqUrl")
    (pyOr (dictGet data "rfq_url")
      (pyOr (dictGet data "url") (headerGet resp.headers "Location")))

/-- Model of Python `s.startswith(pre)` (comparison by code point). -/
def py_startswith (s pre : String) : Bool :=
  s.data.take pre.data.length == pre.data

/-- Model of Python `s[n:]` (slicing by code point). -/
def py_drop (s : String) (n : Nat) : String := ⟨s.data.drop n⟩

/-- The `http://` to `https://` rewrite applied to the extracted URL:
`"https://" + rfq_url[len("http://"):]` when it starts with `http://`. -/
def fix_scheme (u : String) : String :=
  if py_startswith u "http://" then "https://" ++ py_drop u 7 else u

/-- Embedding of the response-handling part of `create_rfq`:
`raise_for_status` (which raises exactly for statuses 400-599), then the
URL extraction chain, the truthiness check, and the scheme rewrite. -/
def create_rfq (resp : HttpResponse) : Except CreateError String :=
  if 400 ≤ resp.status ∧ resp.status < 600 then
    Except.error (CreateError.httpError resp.status)
  else
    let data := resp.jsonBody.getD []
    let rfq_url := extract_rfq_url resp
    if truthy rfq_url then Except.ok (fix_scheme (rfq_url.getD ""))
    else Except.error (CreateError.missingRfqUrl resp.status data resp.headers)

/-! ## `poll_quotes` -/

/-- The poller's failure: `TimeoutError("No quotes received within polling limit")`. -/
inductive PollError where
  | pollTimeout
deriving DecidableEq

/-- The loop of `poll_quotes`: `fetch k` is the quote list returned by
the signed GET of attempt `k` (attempts are numbered from 1 as in
`range(1, max_attempts + 1)`).  Returns the outcome together with the
number of `listQuotes` calls made. -/
def pollGo {α : Type} (fetch : Nat → List α) (attempt : Nat) :
    Nat → Except PollError α × Nat
  | 0 => (Except.error PollError.pollTimeout, 0)
  | fuel + 1 =>
    match fetch attempt with
    | q :: _ => (Except.ok q, 1)
    | [] =>
      let rest := pollGo fetch (attempt + 1) fuel
      (rest.1, rest.2 + 1)

/-- Embedding of `poll_quotes`: run the attempt loop starting at
attempt 1 with `max_attempts` attempts available.  The inter-attempt
sleep has no observable effect in the embedding. -/
def poll_quotes {α : Type} (fetch : Nat → List α) (max_attempts : Nat) :
    Except PollError α × Nat :=
  pollGo fetch 1 max_attempts

/-- The signed GET request issued by each polling attempt. -/
def poll_request (rfq_url api_key secret_key : String) (nowMs : Nat) : Request :=
  { method := "GET",
    url := quotes_url_of rfq_url,
    headers := make_auth_headers nowMs (quotes_path_of rfq_url) api_key secret_key,
    body := "" }

/-! ## `execute_quote` -/

/-- JSON string escaping as performed by `json.dumps` with its default
`ensure_ascii=True`. -/
def hex_digit (n : Nat) : Char := "0123456789abcdef".data.getD n '0'

/-- A `\uXXXX` escape for a code unit. -/
def u_escape (n : Nat) : List Char :=
  ['\\', 'u', hex_digit (n / 4096 % 16), hex_digit (n / 256 % 16),
   hex_digit (n / 16 % 16), hex_digit (n % 16)]

/-- Escape one character as `json.dumps` does. -/
def json_escape_char (c : Char) : List Char :=
  if c = '"' then ['\\', '"']
  else if c = '\\' then ['\\', '\\']
  else if c.toNat = 10 then ['\\', 'n']
  else if c.toNat = 13 then ['\\', 'r']
  else if c.toNat = 9 then ['\\', 't']
  else if c.toNat = 8 then ['\\', 'b']
  else if c.toNat = 12 then ['\\', 'f']
  else if c.toNat < 32 ∨ c.toNat > 126 then
    if c.toNat < 65536 then u_escape c.toNat
    else u_escape (55296 + (c.toNat - 65536) / 1024) ++ u_escape (56320 + (c.toNat - 65536) % 1024)
  else [c]

/-- A JSON string literal for `s`. -/
def json_string (s : String) : String :=
  ⟨'"' :: s.data.flatMap json_escape_char ++ ['"']⟩

/-- The serialized payload `json.dumps(\x7b"winningQuoteId": quote_id\x7d)`
as sent by `requests` for `json=payload`. -/
def dumps_winning_quote (quote_id : String) : String :=
  "\x7b\"winningQuoteId\": " ++ json_string quote_id ++ "\x7d"

/-- The diagnostic dump printed by `execute_quote` on a non-ok response. -/
structure ExecDiag where
  status : Nat
  url : String
  method : String
  signed_path : String
  request_headers : List (String × String)
  request_body : String
  response_headers : List (String × String)
  response_body : String
deriving DecidableEq

/-- The error `execute_quote` raises (`requests.HTTPError`, carrying the
original status code). -/
inductive ExecError where
  | httpError (status : Nat)
deriving DecidableEq

/-- Everything observable about one run of `execute_quote`: the request
it sent, the diagnostic dump it printed (if any), and its outcome. -/
structure ExecOutcome where
  request : Request
  printed_diag : Option ExecDiag
  result : Except ExecError String

/-- The filter applied to request headers in the diagnostic dump. -/
def print_header_filter (kv : String × String) : Bool :=
  (lower_str kv.1).startsWith "x-" || lower_str kv.1 == "content-type" ||
    lower_str kv.1 == "accept"

/-- Model of `requests.Response.ok`: it is defined by calling
`raise_for_status` and catching `HTTPError`, so it is `false` exactly
for statuses 400-599 (a status of 600 or more is "ok"). -/
def resp_ok (status : Nat) : Bool :=
  if 400 ≤ status ∧ status < 600 then false else true

/-- Embedding of `execute_quote`.  `resp` is the response the server
returns for the signed POST.  The `if not resp.ok` block prints the
diagnostic dump and then calls `raise_for_status`, which always raises
there since `resp.ok` is false exactly when the status is 400-599. -/
def execute_quote (rfq_url quote_id api_key secret_key : String) (nowMs : Nat)
    (resp : HttpResponse) : ExecOutcome :=
  let execute_path := execute_path_of rfq_url
  let execute_url := execute_url_of rfq_url
  let body := dumps_winning_quote quote_id
  let headers := make_auth_headers nowMs execute_path api_key secret_key
  let req : Request := { method := "POST", url := execute_url, headers := headers, body := body }
  if resp_ok resp.status then
    { request := req, printed_diag := none, result := Except.ok resp.text }
  else
    let diag : ExecDiag :=
      { status := resp.status,
        url := execute_url,
        method := "POST",
        signed_path := execute_path,
        request_headers := headers.filter print_header_filter,
        request_body := body,
        response_headers := resp.headers,
        response_body := resp.text }
    { request := req, printed_diag := some diag,
      result := Except.error (ExecError.httpError resp.status) }

/-! ## Nonce sequences -/

/-- The `x-nonce` header values produced by a sequence of
`make_auth_headers` calls whose wall-clock millisecond readings are
`times`. -/
def nonces_of (path api_key secret_key : String) (times : List Nat) : List String :=
  times.map (fun t =>
    ((make_auth_headers t path api_key secret_key).find?
      (fun kv => kv.1 == "x-nonce")).elim "" Prod.snd)

/-! ## Claim C2: the signature construction -/

/-- The Signer contract as the specification words it: the standard
padded base64 encoding of the HMAC-SHA-256 digest, keyed by the secret
key, of the literal colon-delimited message `apiKey:nonce:path`. -/
def sign_spec (api_key secret_key path nonce : String) : String :=
  b64encode (hmac_sha256 (utf8_bytes secret_key)
    (utf8_bytes (api_key ++ ":" ++ nonce ++ ":" ++ path)))

/-- C2: for every apiKey, secretKey, path and nonce, `create_signature`
returns the standard padded base64 encoding of the HMAC-SHA-256 digest,
keyed by secretKey, of the literal colon-delimited concatenation
`apiKey + ":" + nonce + ":" + path` (no URL-encoding or escaping), and
it is deterministic: equal input tuples yield equal signatures. -/
theorem create_signature_spec (nonce path api_key secret_key : String) :
    create_signature nonce path api_key secret_key = sign_spec api_key secret_key path nonce
    ∧ (∀ n2 p2 a2 s2 : String, n2 = nonce → p2 = path → a2 = api_key → s2 = secret_key →
        create_signature n2 p2 a2 s2 = create_signature nonce path api_key secret_key) := by
  refine ⟨rfl, ?_⟩
  rintro n2 p2 a2 s2 rfl rfl rfl rfl
  rfl

/-- Witness for C2 at a concrete input tuple. -/
theorem create_signature_spec_witness :
    create_signature "1700000000000" "/api/v1/request-for-quotes" "key" "secret"
      = sign_spec "key" "secret" "/api/v1/request-for-quotes" "1700000000000"
    ∧ create_signature "1700000000000" "/api/v1/request-for-quotes" "key" "secret"
      = create_signature "1700000000000" "/api/v1/request-for-quotes" "key" "secret" := by
  have h := create_signature_spec "1700000000000" "/api/v1/request-for-quotes" "key" "secret"
  exact ⟨h.1, h.2 _ _ _ _ rfl rfl rfl rfl⟩

/-! ## Claim C9: colon collisions in the signed message -/

/-- C9: `sign` is not injective in the (nonce, path) pair: moving the
fragment `x:` from the front of the path onto the end of the nonce
leaves the colon-delimited message, and hence the signature, unchanged,
even though the pair is different, because the message construction does
not escape colons. -/
theorem signature_collision_spec (api_key secret_key nonce path : String) :
    create_signature nonce ("x:" ++ path) api_key secret_key
      = create_signature (nonce ++ ":x") path api_key secret_key
    ∧ ("x:" ++ path) ≠ path := by
  constructor
  · have hmsg : api_key ++ ":" ++ nonce ++ ":" ++ ("x:" ++ path)
        = api_key ++ ":" ++ (nonce ++ ":x") ++ ":" ++ path := by
      apply String.ext
      simp [String.data_append]
    show b64encode (hmac_sha256 (utf8_bytes secret_key)
        (utf8_bytes (api_key ++ ":" ++ nonce ++ ":" ++ ("x:" ++ path))))
      = b64encode (hmac_sha256 (utf8_bytes secret_key)
        (utf8_bytes (api_key ++ ":" ++ (nonce ++ ":x") ++ ":" ++ path)))
    rw [hmsg]
  · intro h
    have hl := congrArg String.length h
    rw [String.length_append] at hl
    have : ("x:" : String).length = 2 := rfl
    omega

/-! ## Claim C6: the insecure-scheme rewrite -/

/-- C6: every RFQ URL extracted by `create_rfq` that begins with
`http://` is rewritten to begin with `https://` before being returned,
and a URL of any other form is returned unchanged. -/
theorem rfq_url_scheme_rewrite_spec (resp : HttpResponse) (raw : String)
    (h2 : 200 ≤ resp.status) (h3 : resp.status < 300)
    (hex : extract_rfq_url resp = some raw) (hne : raw ≠ "") :
    (py_startswith raw "http://" = true →
      create_rfq resp = Except.ok ("https://" ++ py_drop raw 7))
    ∧ (py_startswith raw "http://" = false → create_rfq resp = Except.ok raw) := by
  have hcond : ¬ (400 ≤ resp.status ∧ resp.status < 600) := by omega
  have htr : truthy (extract_rfq_url resp) = true := by
    rw [hex]
    simp [truthy, hne]
  constructor <;> intro hsw <;>
    simp [create_rfq, hcond, htr, hex, fix_scheme, hsw, truthy, hne]

/-- Witness for C6: a response whose body carries an `http://` URL. -/
theorem rfq_url_scheme_rewrite_spec_witness :
    create_rfq { status := 200, jsonBody := some [("rfqUrl", "http://x.test/rfq/1")],
                 headers := [], text := "" }
      = Except.ok ("https://" ++ py_drop "http://x.test/rfq/1" 7) := by
  have h := rfq_url_scheme_rewrite_spec
    { status := 200, jsonBody := some [("rfqUrl", "http://x.test/rfq/1")],
      headers := [], text := "" }
    "http://x.test/rfq/1" (by decide) (by decide) rfl (by decide)
  exact h.1 rfl

/-! ## Helper lemmas about the truthiness chain -/

theorem truthy_some {v : String} (h : v ≠ "") : truthy (some v) = true := by
  simp [truthy, h]

theorem pyOr_pos {a b : Option String} (h : truthy a = true) : pyOr a b = a := by
  simp [pyOr, h]

theorem pyOr_neg {a b : Option String} (h : truthy a = false) : pyOr a b = b := by
  simp [pyOr, h]

/-- The extraction chain, with the `let` spelled out. -/
theorem extract_rfq_url_eq (resp : HttpResponse) :
    extract_rfq_url resp
      = pyOr (dictGet (resp.jsonBody.getD []) "rfqUrl")
          (pyOr (dictGet (resp.jsonBody.getD []) "rfq_url")
            (pyOr (dictGet (resp.jsonBody.getD []) "url")
              (headerGet resp.headers "Location"))) := rfl

/-- The branch structure of `create_rfq` once `raise_for_status` passes. -/
theorem create_rfq_eq (resp : HttpResponse) (h : ¬ (400 ≤ resp.status ∧ resp.status < 600)) :
    create_rfq resp
      = if truthy (extract_rfq_url resp) then
          Except.ok (fix_scheme ((extract_rfq_url resp).getD ""))
        else Except.error
          (CreateError.missingRfqUrl resp.status (resp.jsonBody.getD []) resp.headers) := by
  simp [create_rfq, h]

/-! ## Claim C4: the RFQ-URL extraction chain -/

/-- Extraction as the claim words it: the first PRESENT body field among
`rfqUrl`, `rfq_url`, `url` (regardless of its value), else the
`Location` header.  Used to contrast with the code's truthiness-based
chain `extract_rfq_url`. -/
def extract_rfq_url_presence (resp : HttpResponse) : Option String :=
  let data := resp.jsonBody.getD []
  (dictGet data "rfqUrl").orElse (fun _ =>
    (dictGet data "rfq_url").orElse (fun _ =>
      (dictGet data "url").orElse (fun _ => headerGet resp.headers "Location")))

/-- A 2xx response whose body HAS the field `rfqUrl`, bound to `""`. -/
def resp_empty_field : HttpResponse :=
  { status := 200, jsonBody := some [("rfqUrl", "")], headers := [], text := "" }

/-- A 2xx response with `rfqUrl` empty but `rfq_url` populated. -/
def resp_skip_field : HttpResponse :=
  { status := 200, jsonBody := some [("rfqUrl", ""), ("rfq_url", "https://b.test/rfq/2")],
    headers := [], text := "" }

/-- Counterexample to C4 as stated: presence-based extraction selects
the present `rfqUrl` field, so the claim predicts no `MissingRfqUrl`
failure and no fallback; the code instead skips the empty field (using
`rfq_url` when one is present) and raises `MissingRfqUrl` when every
candidate is empty even though `rfqUrl` is present. -/
theorem create_rfq_presence_counterexample :
    extract_rfq_url_presence resp_empty_field = some ""
    ∧ create_rfq resp_empty_field
      = Except.error (CreateError.missingRfqUrl 200 [("rfqUrl", "")] [])
    ∧ create_rfq resp_skip_field = Except.ok "https://b.test/rfq/2" :=
  ⟨rfl, rfl, rfl⟩

/-- C4 amended: on a 2xx create response the code checks the body fields
`rfqUrl`, `rfq_url`, `url` in that priority order but treats a
present-but-empty field like a missing one, falls back to the `Location`
header when all three are absent or empty, and fails with
`MissingRfqUrl` (carrying status, parsed body and headers) exactly when
the final candidate is also absent or empty. -/
theorem create_rfq_extraction_spec (resp : HttpResponse)
    (h2 : 200 ≤ resp.status) (h3 : resp.status < 300) :
    (∀ v, dictGet (resp.jsonBody.getD []) "rfqUrl" = some v → v ≠ "" →
        create_rfq resp = Except.ok (fix_scheme v))
    ∧ (truthy (dictGet (resp.jsonBody.getD []) "rfqUrl") = false →
        ∀ v, dictGet (resp.jsonBody.getD []) "rfq_url" = some v → v ≠ "" →
          create_rfq resp = Except.ok (fix_scheme v))
    ∧ (truthy (dictGet (resp.jsonBody.getD []) "rfqUrl") = false →
        truthy (dictGet (resp.jsonBody.getD []) "rfq_url") = false →
        ∀ v, dictGet (resp.jsonBody.getD []) "url" = some v → v ≠ "" →
          create_rfq resp = Except.ok (fix_scheme v))
    ∧ (truthy (dictGet (resp.jsonBody.getD []) "rfqUrl") = false →
        truthy (dictGet (resp.jsonBody.getD []) "rfq_url") = false →
        truthy (dictGet (resp.jsonBody.getD []) "url") = false →
        ∀ v, headerGet resp.headers "Location" = some v → v ≠ "" →
          create_rfq resp = Except.ok (fix_scheme v))
    ∧ (truthy (dictGet (resp.jsonBody.getD []) "rfqUrl") = false →
        truthy (dictGet (resp.jsonBody.getD []) "rfq_url") = false →
        truthy (dictGet (resp.jsonBody.getD []) "url") = false →
        truthy (headerGet resp.headers "Location") = false →
        create_rfq resp = Except.error
          (CreateError.missingRfqUrl resp.status (resp.jsonBody.getD []) resp.headers)) := by
  have hcond : ¬ (400 ≤ resp.status ∧ resp.status < 600) := by omega
  rw [create_rfq_eq resp hcond]
  refine ⟨?_, ?_, ?_, ?_, ?_⟩
  · intro v hv hne
    have he : extract_rfq_url resp = some v := by
      rw [extract_rfq_url_eq, hv, pyOr_pos (truthy_some hne)]
    rw [he]
    simp [truthy_some hne]
  · intro h1 v hv hne
    have he : extract_rfq_url resp = some v := by
      rw [extract_rfq_url_eq, pyOr_neg h1, hv, pyOr_pos (truthy_some hne)]
    rw [he]
    simp [truthy_some hne]
  · intro h1 hb v hv hne
    have he : extract_rfq_url resp = some v := by
      rw [extract_rfq_url_eq, pyOr_neg h1, pyOr_neg hb, hv, pyOr_pos (truthy_some hne)]
    rw [he]
    simp [truthy_some hne]
  · intro h1 hb hc v hv hne
    have he : extract_rfq_url resp = some v := by
      rw [extract_rfq_url_eq, pyOr_neg h1, pyOr_neg hb, pyOr_neg hc, hv]
    rw [he]
    simp [truthy_some hne]
  · intro h1 hb hc hd
    have he : truthy (extract_rfq_url resp) = false := by
      rw [extract_rfq_url_eq, pyOr_neg h1, pyOr_neg hb, pyOr_neg hc]
      exact hd
    rw [if_neg]
    rw [he]
    exact Bool.false_ne_true

/-- Witness for the amended C4: the empty `rfqUrl` field is skipped in
favour of `rfq_url`. -/
theorem create_rfq_extraction_spec_witness :
    create_rfq resp_skip_field = Except.ok (fix_scheme "https://b.test/rfq/2") := by
  have h := create_rfq_extraction_spec resp_skip_field (by decide) (by decide)
  exact h.2.1 (by decide) "https://b.test/rfq/2" (by decide) (by decide)

/-! ## Claim C10: falsy fields are skipped; a falsy final value raises -/

/-- C10: `create_rfq` treats a present-but-falsy body field (for example
`rfqUrl` bound to `""`) as absent, skipping to the next candidate in the
priority chain, and raises `MissingRfqUrl` whenever the finally
extracted value is falsy — including when the `Location` header is
present but empty. -/
theorem falsy_field_skip_spec (resp : HttpResponse)
    (h2 : 200 ≤ resp.status) (h3 : resp.status < 300) :
    (dictGet (resp.jsonBody.getD []) "rfqUrl" = some "" →
      extract_rfq_url resp
        = pyOr (dictGet (resp.jsonBody.getD []) "rfq_url")
            (pyOr (dictGet (resp.jsonBody.getD []) "url")
              (headerGet resp.headers "Location")))
    ∧ (truthy (extract_rfq_url resp) = false →
        create_rfq resp = Except.error
          (CreateError.missingRfqUrl resp.status (resp.jsonBody.getD []) resp.headers))
    ∧ (truthy (dictGet (resp.jsonBody.getD []) "rfqUrl") = false →
        truthy (dictGet (resp.jsonBody.getD []) "rfq_url") = false →
        truthy (dictGet (resp.jsonBody.getD []) "url") = false →
        headerGet resp.headers "Location" = some "" →
        create_rfq resp = Except.error
          (CreateError.missingRfqUrl resp.status (resp.jsonBody.getD []) resp.headers)) := by
  have hcond : ¬ (400 ≤ resp.status ∧ resp.status < 600) := by omega
  refine ⟨?_, ?_, ?_⟩
  · intro hv
    rw [extract_rfq_url_eq, hv, pyOr_neg]
    rfl
  · intro hf
    rw [create_rfq_eq resp hcond, if_neg]
    rw [hf]
    exact Bool.false_ne_true
  · intro h1 hb hc hd
    have he : truthy (extract_rfq_url resp) = false := by
      rw [extract_rfq_url_eq, pyOr_neg h1, pyOr_neg hb, pyOr_neg hc, hd]
      rfl
    rw [create_rfq_eq resp hcond, if_neg]
    rw [he]
    exact Bool.false_ne_true

/-- A 2xx response with an empty `rfqUrl` field and an empty `Location`
header. -/
def resp_empty_location : HttpResponse :=
  { status := 201, jsonBody := some [("rfqUrl", "")], headers := [("Location", "")],
    text := "" }

/-- Witness for C10: all body fields empty or missing and an empty
`Location` header still raise `MissingRfqUrl`. -/
theorem falsy_field_skip_spec_witness :
    create_rfq resp_empty_location
      = Except.error (CreateError.missingRfqUrl 201 [("rfqUrl", "")] [("Location", "")]) := by
  have h := falsy_field_skip_spec resp_empty_location (by decide) (by decide)
  exact h.2.2 (by decide) (by decide) (by decide) rfl

/-! ## Claim C7: create error modes -/

/-- A bare 300 response: not 2xx, yet `raise_for_status` does not raise. -/
def resp_300 : HttpResponse :=
  { status := 300, jsonBody := some [], headers := [], text := "" }

/-- A 2xx response with a malformed JSON body but a `Location` header. -/
def resp_malformed_location : HttpResponse :=
  { status := 200, jsonBody := none, headers := [("Location", "https://x.test/rfq/9")],
    text := "not json" }

/-- Counterexample to C7 as stated: a status-300 response is non-2xx but
produces `MissingRfqUrl` rather than `HttpError` (since
`raise_for_status` raises only for 400-599), and a 2xx response with a
malformed JSON body does not surface as `MissingRfqUrl` when a non-empty
`Location` header supplies the URL. -/
theorem create_rfq_error_modes_counterexample :
    create_rfq resp_300 = Except.error (CreateError.missingRfqUrl 300 [] [])
    ∧ create_rfq resp_malformed_location = Except.ok "https://x.test/rfq/9" :=
  ⟨rfl, rfl⟩

/-- C7 amended: a response with status 400-599 surfaces as `HttpError`;
a 2xx response whose body is not valid JSON surfaces as `MissingRfqUrl`
when no non-empty `Location` header is present; and `HttpError` arises
exactly for statuses 400-599 (with the status preserved), so neither
failure mode masks the other. -/
theorem create_rfq_error_modes_spec (resp : HttpResponse) :
    (400 ≤ resp.status → resp.status < 600 →
      create_rfq resp = Except.error (CreateError.httpError resp.status))
    ∧ (200 ≤ resp.status → resp.status < 300 → resp.jsonBody = none →
        truthy (headerGet resp.headers "Location") = false →
        create_rfq resp = Except.error
          (CreateError.missingRfqUrl resp.status [] resp.headers))
    ∧ (∀ st, create_rfq resp = Except.error (CreateError.httpError st) →
        st = resp.status ∧ 400 ≤ resp.status ∧ resp.status < 600) := by
  refine ⟨?_, ?_, ?_⟩
  · intro h4 h6
    simp [create_rfq, h4, h6]
  · intro h2 h3 hjson hloc
    have hcond : ¬ (400 ≤ resp.status ∧ resp.status < 600) := by omega
    have he : truthy (extract_rfq_url resp) = false := by
      rw [extract_rfq_url_eq, hjson]
      show truthy (pyOr (dictGet [] "rfqUrl")
        (pyOr (dictGet [] "rfq_url")
          (pyOr (dictGet [] "url") (headerGet resp.headers "Location")))) = false
      rw [pyOr_neg (by rfl), pyOr_neg (by rfl), pyOr_neg (by rfl)]
      exact hloc
    rw [create_rfq_eq resp hcond, if_neg]
    · rw [hjson]
      rfl
    · rw [he]
      exact Bool.false_ne_true
  · intro st h
    by_cases hcond : 400 ≤ resp.status ∧ resp.status < 600
    · refine ⟨?_, hcond.1, hcond.2⟩
      have : create_rfq resp = Except.error (CreateError.httpError resp.status) := by
        simp [create_rfq, hcond]
      rw [this] at h
      cases h
      rfl
    · rw [create_rfq_eq resp hcond] at h
      by_cases ht : truthy (extract_rfq_url resp) = true
      · rw [if_pos ht] at h
        cases h
      · rw [if_neg ht] at h
        cases h

/-- Witness for the amended C7 at status 404 and at a malformed 2xx body. -/
theorem create_rfq_error_modes_spec_witness :
    create_rfq { status := 404, jsonBody := some [], headers := [], text := "" }
      = Except.error (CreateError.httpError 404)
    ∧ create_rfq { status := 200, jsonBody := none, headers := [], text := "oops" }
      = Except.error (CreateError.missingRfqUrl 200 [] []) := by
  refine ⟨?_, ?_⟩
  · exact (create_rfq_error_modes_spec
      { status := 404, jsonBody := some [], headers := [], text := "" }).1
      (by decide) (by decide)
  · exact (create_rfq_error_modes_spec
      { status := 200, jsonBody := none, headers := [], text := "oops" }).2.1
      (by decide) (by decide) rfl (by decide)

/-! ## Claim C5: execute error handling -/

/-- A 302 response to the execute call. -/
def resp_302 : HttpResponse :=
  { status := 302, jsonBody := none, headers := [], text := "see other" }

/-- A non-standard status-700 response to the execute call. -/
def resp_700 : HttpResponse :=
  { status := 700, jsonBody := none, headers := [], text := "weird" }

/-- Counterexample to C5 as stated: a 302 response is non-2xx, yet
`execute_quote` raises nothing and prints no diagnostics, returning the
body as success (`resp.ok` is false only for statuses 400-599);
likewise a status-700 response is "ok" to `requests`, so it too returns
the body with no error and no diagnostic dump. -/
theorem execute_quote_non2xx_counterexample :
    (execute_quote "https://x.test/rfq/1" "q1" "k" "s" 5 resp_302).result
      = Except.ok "see other"
    ∧ (execute_quote "https://x.test/rfq/1" "q1" "k" "s" 5 resp_302).printed_diag = none
    ∧ (execute_quote "https://x.test/rfq/1" "q1" "k" "s" 5 resp_700).result
      = Except.ok "weird"
    ∧ (execute_quote "https://x.test/rfq/1" "q1" "k" "s" 5 resp_700).printed_diag = none :=
  ⟨rfl, rfl, rfl, rfl⟩

/-- C5 amended: for every response with status in 400-599,
`execute_quote` raises `HttpError` preserving the original status code,
after printing a diagnostic dump containing the status, the execute URL,
the method, the signed path, the outgoing auth/content headers, the
outgoing body, all response headers, and the response body text
verbatim; every other status (below 400, including 3xx, or at or above
600) is "ok" to `requests`, so the call returns the response body
without raising and without printing diagnostics. -/
theorem execute_quote_error_spec (rfq_url quote_id api_key secret_key : String)
    (nowMs : Nat) (resp : HttpResponse) :
    (400 ≤ resp.status → resp.status < 600 →
      (execute_quote rfq_url quote_id api_key secret_key nowMs resp).result
        = Except.error (ExecError.httpError resp.status)
      ∧ (execute_quote rfq_url quote_id api_key secret_key nowMs resp).printed_diag
        = some { status := resp.status,
                 url := execute_url_of rfq_url,
                 method := "POST",
                 signed_path := execute_path_of rfq_url,
                 request_headers :=
                   (make_auth_headers nowMs (execute_path_of rfq_url) api_key
                     secret_key).filter print_header_filter,
                 request_body := dumps_winning_quote quote_id,
                 response_headers := resp.headers,
                 response_body := resp.text })
    ∧ (resp.status < 400 ∨ 600 ≤ resp.status →
      (execute_quote rfq_url quote_id api_key secret_key nowMs resp).result
        = Except.ok resp.text
      ∧ (execute_quote rfq_url quote_id api_key secret_key nowMs resp).printed_diag
        = none) := by
  constructor
  · intro h4 h6
    have hok : resp_ok resp.status = false := by
      rw [resp_ok, if_pos ⟨h4, h6⟩]
    constructor <;> simp [execute_quote, hok]
  · intro hor
    have hok : resp_ok resp.status = true := by
      rw [resp_ok, if_neg (by omega)]
    constructor <;> simp [execute_quote, hok]

/-- A 400 response carrying the body `"insufficient funds"`. -/
def resp_400_funds : HttpResponse :=
  { status := 400, jsonBody := none, headers := [("Content-Type", "text/plain")],
    text := "insufficient funds" }

/-- Witness for the amended C5: execute returning HTTP 400 with body
`"insufficient funds"` raises `HttpError` with status 400 and prints a
diagnostic whose response body is that text verbatim. -/
theorem execute_quote_error_spec_witness :
    (execute_quote "https://x.test/rfq/1" "q1" "k" "s" 5 resp_400_funds).result
      = Except.error (ExecError.httpError 400)
    ∧ ((execute_quote "https://x.test/rfq/1" "q1" "k" "s" 5 resp_400_funds).printed_diag.map
        ExecDiag.status) = some 400
    ∧ ((execute_quote "https://x.test/rfq/1" "q1" "k" "s" 5 resp_400_funds).printed_diag.map
        ExecDiag.response_body) = some "insufficient funds" := by
  have h := (execute_quote_error_spec "https://x.test/rfq/1" "q1" "k" "s" 5
    resp_400_funds).1 (by decide) (by decide)
  refine ⟨h.1, ?_, ?_⟩
  · rw [h.2]
    rfl
  · rw [h.2]
    rfl

/-! ## Claim C1: the polling loop -/

theorem pollGo_calls_le {α : Type} (fetch : Nat → List α) :
    ∀ (fuel attempt : Nat), (pollGo fetch attempt fuel).2 ≤ fuel := by
  intro fuel
  induction fuel with
  | zero => intro attempt; simp [pollGo]
  | succ f ih =>
    intro attempt
    rw [pollGo]
    cases h : fetch attempt with
    | cons q l => simp
    | nil =>
      simp only []
      exact Nat.succ_le_succ (ih (attempt + 1))

theorem pollGo_timeout {α : Type} (fetch : Nat → List α) :
    ∀ (fuel attempt : Nat), (∀ j, attempt ≤ j → j < attempt + fuel → fetch j = []) →
      pollGo fetch attempt fuel = (Except.error PollError.pollTimeout, fuel) := by
  intro fuel
  induction fuel with
  | zero => intro attempt _; rfl
  | succ f ih =>
    intro attempt hempty
    have h0 : fetch attempt = [] := hempty attempt (Nat.le_refl _) (by omega)
    rw [pollGo, h0]
    have := ih (attempt + 1) (fun j h1 h2 => hempty j (by omega) (by omega))
    simp only [this]

theorem pollGo_first {α : Type} (fetch : Nat → List α) :
    ∀ (k fuel attempt : Nat) (q : α) (l : List α), k < fuel →
      (∀ j, attempt ≤ j → j < attempt + k → fetch j = []) →
      fetch (attempt + k) = q :: l →
      pollGo fetch attempt fuel = (Except.ok q, k + 1) := by
  intro k
  induction k with
  | zero =>
    intro fuel attempt q l hk _ hfetch
    cases fuel with
    | zero => omega
    | succ f =>
      rw [pollGo]
      simp only [Nat.add_zero] at hfetch
      rw [hfetch]
  | succ k ih =>
    intro fuel attempt q l hk hempty hfetch
    cases fuel with
    | zero => omega
    | succ f =>
      have h0 : fetch attempt = [] := hempty attempt (Nat.le_refl _) (by omega)
      rw [pollGo, h0]
      have hrec : pollGo fetch (attempt + 1) f = (Except.ok q, k + 1) := by
        refine ih f (attempt + 1) q l (by omega)
          (fun j h1 h2 => hempty j (by omega) (by omega)) ?_
        have : attempt + 1 + k = attempt + (k + 1) := by omega
        rw [this, hfetch]
      simp only [hrec]

/-- C1: for every quote source, `poll_quotes` with `max_attempts ≥ 1`
calls `listQuotes` at most `max_attempts` times; on the first attempt
whose result is non-empty it immediately returns the element at index 0
of that list (after exactly that many calls); and when all attempts come
back empty it fails with the poll timeout after exactly `max_attempts`
calls. -/
theorem poll_quotes_spec {α : Type} (fetch : Nat → List α) (max_attempts : Nat)
    (hm : 1 ≤ max_attempts) :
    (poll_quotes fetch max_attempts).2 ≤ max_attempts
    ∧ (∀ k (q : α) (l : List α), 1 ≤ k → k ≤ max_attempts →
        (∀ j, 1 ≤ j → j < k → fetch j = []) → fetch k = q :: l →
        poll_quotes fetch max_attempts = (Except.ok q, k))
    ∧ ((∀ j, 1 ≤ j → j ≤ max_attempts → fetch j = []) →
        poll_quotes fetch max_attempts
          = (Except.error PollError.pollTimeout, max_attempts)) := by
  refine ⟨pollGo_calls_le fetch max_attempts 1, ?_, ?_⟩
  · intro k q l hk1 hkm hempty hfetch
    obtain ⟨k', rfl⟩ : ∃ k', k = k' + 1 := ⟨k - 1, by omega⟩
    exact pollGo_first fetch k' max_attempts 1 q l (by omega)
      (fun j h1 h2 => hempty j h1 (by omega))
      (by rw [show 1 + k' = k' + 1 by omega, hfetch])
  · intro hempty
    exact pollGo_timeout fetch max_attempts 1 (fun j h1 h2 => hempty j h1 (by omega))

/-- A quote source that is empty on attempt 1 and non-empty on attempt 2. -/
def fetch_second : Nat → List String := fun k => if k = 2 then ["q1"] else []

/-- Witness for C1: with the above source and three attempts the poller
returns `"q1"` on attempt 2 after exactly 2 calls. -/
theorem poll_quotes_spec_witness :
    poll_quotes fetch_second 3 = (Except.ok "q1", 2) := by
  have h := poll_quotes_spec fetch_second 3 (by omega)
  refine h.2.1 2 "q1" [] (by omega) (by omega) ?_ (by rfl)
  intro j h1 h2
  interval_cases j
  rfl

/-! ## Claim C8: nonce generation -/

/-- Counterexample to C8 as stated: two calls whose wall-clock
millisecond readings coincide (here both 7) produce the same `x-nonce`
value, so the nonce sequence is not unique; and readings that go
backwards (wall clocks may) produce a decreasing nonce sequence. -/
theorem nonce_uniqueness_counterexample :
    ¬ ((nonces_of "/p" "k" "s" [7, 7]).Pairwise (fun a b => a ≠ b))
    ∧ ¬ (List.Chain' (fun a b => decimal_val a ≤ decimal_val b)
          (nonces_of "/p" "k" "s" [7, 3])) := by
  constructor
  · intro h
    have h2 : nonces_of "/p" "k" "s" [7, 7] = ["7", "7"] := rfl
    rw [h2] at h
    rcases List.pairwise_cons.mp h with ⟨h1, _⟩
    exact h1 "7" (by simp) rfl
  · intro h
    have h2 : nonces_of "/p" "k" "s" [7, 3] = ["7", "3"] := rfl
    rw [h2] at h
    rcases List.chain'_cons.mp h with ⟨hab, _⟩
    have h7 : decimal_val "7" = 7 := rfl
    have h3 : decimal_val "3" = 3 := rfl
    rw [h7, h3] at hab
    omega

/-- The nonce header of one call is the decimal rendering of its clock
reading. -/
theorem nonces_of_eq_map (path api_key secret_key : String) (times : List Nat) :
    nonces_of path api_key secret_key times = times.map pyStr := rfl

/-- C8 amended: `make_auth_headers` derives each call's nonce freshly
from the current wall clock (never caching a previous one), and whenever
the millisecond readings of the calls are strictly increasing the
resulting nonce sequence is unique and numerically non-decreasing. -/
theorem nonce_freshness_spec (path api_key secret_key : String) (times : List Nat)
    (h : List.Chain' (fun a b => a < b) times) :
    (nonces_of path api_key secret_key times).Pairwise (fun a b => a ≠ b)
    ∧ List.Chain' (fun a b => decimal_val a ≤ decimal_val b)
        (nonces_of path api_key secret_key times) := by
  rw [nonces_of_eq_map]
  constructor
  · have hp : times.Pairwise (fun a b => a < b) := List.chain'_iff_pairwise.mp h
    exact hp.map pyStr (fun a b hab heq => absurd (pyStr_injective heq) (Nat.ne_of_lt hab))
  · rw [List.chain'_map]
    exact h.imp (fun a b hab => by
      rw [decimal_val_pyStr, decimal_val_pyStr]
      omega)

/-- Witness for the amended C8 at two strictly increasing clock readings. -/
theorem nonce_freshness_spec_witness :
    (nonces_of "/p" "k" "s" [100, 101]).Pairwise (fun a b => a ≠ b)
    ∧ List.Chain' (fun a b => decimal_val a ≤ decimal_val b)
        (nonces_of "/p" "k" "s" [100, 101]) :=
  nonce_freshness_spec "/p" "k" "s" [100, 101]
    (List.chain'_cons.mpr ⟨by omega, List.chain'_singleton 101⟩)

/-! ## Claim C3: path derivation

The key fact is how the `urlparse` path component reacts to a trailing
slash appended to the whole URL: it either gains the slash, is
unchanged, or collapses from `"/"` to `""`; in each case the
`rstrip("/")` normalisation gives the same result — except that
`urlparse` also strips `;params` from the last path segment, which
breaks the invariance for URLs whose last segment contains `;`. -/

theorem takeWhile_full (p : Char → Bool) :
    ∀ (xs : List Char), (xs.takeWhile p).length = xs.length → xs.takeWhile p = xs := by
  intro xs
  induction xs with
  | nil => intro _; rfl
  | cons x t ih =>
    intro h
    rw [List.takeWhile_cons] at h ⊢
    by_cases hx : p x = true
    · rw [if_pos hx] at h ⊢
      simp only [List.length_cons, Nat.add_right_cancel_iff] at h
      rw [ih h]
    · rw [if_neg hx] at h
      simp at h

theorem takeWhile_append_one (p : Char → Bool) (xs : List Char) (a : Char)
    (ha : p a = true) :
    (xs ++ [a]).takeWhile p = xs.takeWhile p ++ [a]
    ∨ (xs ++ [a]).takeWhile p = xs.takeWhile p := by
  rw [List.takeWhile_append]
  by_cases h : (xs.takeWhile p).length = xs.length
  · left
    rw [if_pos h, takeWhile_full p xs h]
    simp [List.takeWhile_cons, ha]
  · right
    rw [if_neg h]

theorem dropWhile_append_one (p : Char → Bool) (xs : List Char) (a : Char)
    (ha : p a = false) :
    (xs ++ [a]).dropWhile p = xs.dropWhile p ++ [a] := by
  rw [List.dropWhile_append]
  by_cases h : (xs.dropWhile p).isEmpty
  · have h2 : xs.dropWhile p = [] := List.isEmpty_iff.mp h
    rw [if_pos h, h2, List.dropWhile_cons]
    simp [ha]
  · rw [if_neg h]

theorem scheme_rest_append_slash (cs : List Char) :
    scheme_rest (cs ++ ['/']) = scheme_rest cs ++ ['/'] := by
  unfold scheme_rest
  cases hd : cs.dropWhile not_colon with
  | nil =>
    have hdrop : (cs ++ ['/']).dropWhile not_colon = [] := by
      rw [List.dropWhile_append, hd]
      rfl
    rw [hdrop]
    simp
  | cons c t =>
    have hdrop : (cs ++ ['/']).dropWhile not_colon = c :: (t ++ ['/']) := by
      rw [List.dropWhile_append, hd]
      rfl
    have hlen : (cs.takeWhile not_colon).length ≠ cs.length := by
      have hsum : (cs.takeWhile not_colon).length + (cs.dropWhile not_colon).length
          = cs.length := by
        rw [← List.length_append, List.takeWhile_append_dropWhile]
      rw [hd] at hsum
      simp only [List.length_cons] at hsum
      omega
    have htake : (cs ++ ['/']).takeWhile not_colon = cs.takeWhile not_colon := by
      rw [List.takeWhile_append, if_neg hlen]
    rw [hdrop, htake]
    by_cases hv : valid_scheme (cs.takeWhile not_colon) = true
    · rw [if_pos ⟨List.cons_ne_nil _ _, hv⟩, if_pos ⟨List.cons_ne_nil _ _, hv⟩]
      rfl
    · rw [if_neg (fun hh => hv hh.2), if_neg (fun hh => hv hh.2)]

theorem rest_path_append_slash (rs : List Char) :
    rest_path (rs ++ ['/']) = rest_path rs ++ ['/']
    ∨ rest_path (rs ++ ['/']) = rest_path rs
    ∨ (rest_path rs = ['/'] ∧ rest_path (rs ++ ['/']) = []) := by
  have hq : (fun c => !path_delim c) '/' = true := rfl
  have hn : (fun c => !netloc_delim c) '/' = false := rfl
  rcases rs with _ | ⟨c, _ | ⟨d, t⟩⟩
  · left
    rfl
  · by_cases hc : c = '/'
    · subst hc
      right; right
      exact ⟨rfl, rfl⟩
    · have h1 : split_netloc_rest ([c] ++ ['/']) = [c] ++ ['/'] := by
        unfold split_netloc_rest
        rw [if_neg]
        intro hh
        simp only [List.cons_append, List.nil_append, List.take_succ_cons,
          List.take_zero, List.cons.injEq, and_true] at hh
        exact hc hh
      have h2 : split_netloc_rest [c] = [c] := by
        unfold split_netloc_rest
        rw [if_neg]
        intro hh
        simp at hh
      unfold rest_path
      rw [h1, h2]
      rcases takeWhile_append_one (fun c => !path_delim c) [c] '/' hq with h | h
      · left; exact h
      · right; left; exact h
  · by_cases hcd : c = '/' ∧ d = '/'
    · obtain ⟨rfl, rfl⟩ := hcd
      have h1 : split_netloc_rest (('/' :: '/' :: t) ++ ['/'])
          = t.dropWhile (fun c => !netloc_delim c) ++ ['/'] := by
        unfold split_netloc_rest
        rw [if_pos (show List.take 2 (('/' :: '/' :: t) ++ ['/']) = ['/', '/'] from rfl)]
        exact dropWhile_append_one (fun c => !netloc_delim c) t '/' hn
      have h2 : split_netloc_rest ('/' :: '/' :: t)
          = t.dropWhile (fun c => !netloc_delim c) := by
        unfold split_netloc_rest
        rw [if_pos (show List.take 2 ('/' :: '/' :: t) = ['/', '/'] from rfl)]
        rfl
      unfold rest_path
      rw [h1, h2]
      rcases takeWhile_append_one (fun c => !path_delim c)
        (t.dropWhile (fun c => !netloc_delim c)) '/' hq with h | h
      · left; exact h
      · right; left; exact h
    · have h1 : split_netloc_rest ((c :: d :: t) ++ ['/']) = (c :: d :: t) ++ ['/'] := by
        unfold split_netloc_rest
        rw [if_neg]
        intro hh
        simp only [List.cons_append, List.take_succ_cons, List.cons.injEq,
          List.take_eq_nil_iff, and_true] at hh
        exact hcd ⟨hh.1, hh.2.1⟩
      have h2 : split_netloc_rest (c :: d :: t) = c :: d :: t := by
        unfold split_netloc_rest
        rw [if_neg]
        intro hh
        simp only [List.take_succ_cons, List.cons.injEq, List.take_eq_nil_iff,
          and_true] at hh
        exact hcd ⟨hh.1, hh.2.1⟩
      unfold rest_path
      rw [h1, h2]
      rcases takeWhile_append_one (fun c => !path_delim c) (c :: d :: t) '/' hq with h | h
      · left; exact h
      · right; left; exact h

theorem rstripL_append_slash (xs : List Char) : rstripL (xs ++ ['/']) = rstripL xs := by
  unfold rstripL
  rw [List.reverse_append]
  simp [List.dropWhile_cons]

theorem rest_path_rstrip (rs : List Char) :
    rstripL (rest_path (rs ++ ['/'])) = rstripL (rest_path rs) := by
  rcases rest_path_append_slash rs with h | h | ⟨h1, h2⟩
  · rw [h, rstripL_append_slash]
  · rw [h]
  · rw [h1, h2]
    rfl

theorem rest_path_mem (rs : List Char) {c : Char}
    (hc : c ∈ rest_path (rs ++ ['/'])) : c ∈ rest_path rs ∨ c = '/' := by
  rcases rest_path_append_slash rs with h | h | ⟨h1, h2⟩
  · rw [h] at hc
    rcases List.mem_append.mp hc with h' | h'
    · exact Or.inl h'
    · right
      simpa using h'
  · rw [h] at hc
    exact Or.inl hc
  · rw [h2] at hc
    cases hc

theorem split_path_append_slash (cs : List Char) :
    rstripL (split_path_chars (cs ++ ['/'])) = rstripL (split_path_chars cs)
    ∧ (∀ c : Char, c ∈ split_path_chars (cs ++ ['/']) →
        c ∈ split_path_chars cs ∨ c = '/') := by
  unfold split_path_chars
  rw [scheme_rest_append_slash]
  exact ⟨rest_path_rstrip _, fun c hc => rest_path_mem _ hc⟩

theorem pyurl_path_no_semicolon (cs : List Char) (h : ¬ ';' ∈ split_path_chars cs) :
    pyurl_path_chars cs = split_path_chars cs := by
  unfold pyurl_path_chars
  have hcontains : (split_path_chars cs).contains ';' = false := by
    simpa using h
  simp [hcontains]
  exact fun _ hin => absurd hin h

theorem execute_quote_request (rfq_url quote_id api_key secret_key : String) (nowMs : Nat)
    (resp : HttpResponse) :
    (execute_quote rfq_url quote_id api_key secret_key nowMs resp).request
      = { method := "POST", url := execute_url_of rfq_url,
          headers := make_auth_headers nowMs (execute_path_of rfq_url) api_key secret_key,
          body := dumps_winning_quote quote_id } := by
  cases hok : resp_ok resp.status <;> simp [execute_quote, hok]

/-- Counterexample to C3 as stated: the derivation is NOT invariant
under a trailing slash for every rfqUrl, because `urlparse(...).path`
strips `;params` from the last path segment.  The two URLs below differ
only by a trailing slash yet derive different quotes paths. -/
theorem path_derivation_semicolon_counterexample :
    quotes_path_of "http://h.test/rfq;1/" ≠ quotes_path_of "http://h.test/rfq;1"
    ∧ quotes_path_of "http://h.test/rfq;1" = "/rfq/quotes"
    ∧ quotes_path_of "http://h.test/rfq;1/" = "/rfq;1/quotes"
    ∧ "http://h.test/rfq;1/" = "http://h.test/rfq;1" ++ "/" :=
  ⟨by decide, rfl, rfl, rfl⟩

/-- C3 amended: both `listQuotes` and `executeQuote` derive the request
path by taking the URL-path component of the rfqUrl, stripping trailing
slashes, and appending `/quotes` or `/execute`; whenever that path
component contains no `;` (so `urlparse` strips no params), the
derivation is invariant under a trailing slash on the rfqUrl; and each
operation's `x-signature` header is computed by `create_signature` over
the derived path, not the original RFQ path. -/
theorem path_derivation_spec (u : String) (h : ¬ ';' ∈ split_path_chars u.data) :
    quotes_path_of (u ++ "/") = quotes_path_of u
    ∧ execute_path_of (u ++ "/") = execute_path_of u
    ∧ (∀ api_key secret_key : String, ∀ nowMs : Nat,
        headerGet (poll_request u api_key secret_key nowMs).headers "x-signature"
          = some (create_signature (pyStr nowMs) (quotes_path_of u) api_key secret_key))
    ∧ (∀ quote_id api_key secret_key : String, ∀ nowMs : Nat, ∀ resp : HttpResponse,
        headerGet (execute_quote u quote_id api_key secret_key nowMs resp).request.headers
            "x-signature"
          = some (create_signature (pyStr nowMs) (execute_path_of u)
              api_key secret_key)) := by
  have hdata : (u ++ "/").data = u.data ++ ['/'] := by
    rw [String.data_append]
  have hmem : ¬ ';' ∈ split_path_chars (u.data ++ ['/']) := by
    intro hin
    rcases (split_path_append_slash u.data).2 ';' hin with h' | h'
    · exact h h'
    · simp at h'
  have hpath : rstripL (pyurl_path_chars (u.data ++ ['/']))
      = rstripL (pyurl_path_chars u.data) := by
    rw [pyurl_path_no_semicolon _ hmem, pyurl_path_no_semicolon _ h]
    exact (split_path_append_slash u.data).1
  have hstrip : rstrip_slash (pyUrlparse (u ++ "/")).path
      = rstrip_slash (pyUrlparse u).path := by
    apply String.ext
    show rstripL (pyurl_path_chars (u ++ "/").data) = rstripL (pyurl_path_chars u.data)
    rw [hdata, hpath]
  refine ⟨?_, ?_, ?_, ?_⟩
  · show rstrip_slash (pyUrlparse (u ++ "/")).path ++ "/quotes"
      = rstrip_slash (pyUrlparse u).path ++ "/quotes"
    rw [hstrip]
  · show rstrip_slash (pyUrlparse (u ++ "/")).path ++ "/execute"
      = rstrip_slash (pyUrlparse u).path ++ "/execute"
    rw [hstrip]
  · intro api_key secret_key nowMs
    rfl
  · intro quote_id api_key secret_key nowMs resp
    rw [execute_quote_request]
    rfl

/-- Witness for the amended C3 at a realistic RFQ URL (no `;` in the
path component). -/
theorem path_derivation_spec_witness :
    quotes_path_of ("https://api.test/api/v1/request-for-quotes/123" ++ "/")
      = quotes_path_of "https://api.test/api/v1/request-for-quotes/123"
    ∧ execute_path_of ("https://api.test/api/v1/request-for-quotes/123" ++ "/")
      = execute_path_of "https://api.test/api/v1/request-for-quotes/123" := by
  have h := path_derivation_spec "https://api.test/api/v1/request-for-quotes/123" (by decide)
  exact ⟨h.1, h.2.1⟩

end CreateOrder
